import Mathlib

/-!
Verification of the `InfiniteLoader` bidirectional virtualized list controller
(`src/src/InfiniteLoader.tsx`), modelled as a shallow embedding.

The controller owns a window `(startIndex, endIndex)` over an unbounded index
space, a loading flag, a debounce timer and a loading timer (both modelled as
pending timers with absolute fire times), and the viewport scroll offset.
Edge-proximity events (`loadMoreDown` / `loadMoreUp`), the debounce callback,
the delayed shift, the scroll compensation, and the imperative API
(`scrollToIndex`, `reset`) are each translated to explicit state transformers.
-/

namespace InfiniteLoader

/-- Which edge triggered a load ('up' | 'down' in the source). -/
inductive Direction where
  | up : Direction
  | down : Direction
deriving DecidableEq, Repr

/-- The configuration props of `InfiniteLoader`, with the source's defaults
(`itemHeight = 50`, `windowSize = 30`, `batchSize = 10`, `loadingDelay = 50`,
`debounceDelay = 150`, `initialStartIndex = 0`,
`disableScrollManagement = false`). The component performs no validation on
any of these values. -/
structure Config where
  itemHeight : Int := 50
  windowSize : Int := 30
  batchSize : Int := 10
  debounceDelay : Nat := 150
  loadingDelay : Nat := 50
  initialStartIndex : Int := 0
  disableScrollManagement : Bool := false
deriving DecidableEq, Repr

/-- The configuration with every prop left at its default. -/
def defaultConfig : Config := {}

/-- The mutable state of one controller instance:
window indices, loading flag, viewport scroll offset, the pending debounce
timer (absolute fire time and direction), the pending load timer (absolute
fire time, direction, and the scroll offset captured when loading started),
the number of completed load episodes, and the arguments of the most recent
`onLoadMore` callback. -/
structure LoaderState where
  startIndex : Int
  endIndex : Int
  isLoading : Bool
  scrollTop : Int
  pendingDebounce : Option (Nat × Direction)
  pendingLoad : Option (Nat × Direction × Int)
  episodes : Nat
  lastCallback : Option (Direction × Int × Int)
deriving DecidableEq, Repr

/-- Initial state: `startIndex = initialStartIndex`,
`endIndex = initialStartIndex + windowSize - 1` (source lines 59-60), not
loading, offset 0, no pending timers. Construction never rejects a
configuration: the source has no validation code. -/
def init (cfg : Config) : LoaderState :=
  { startIndex := cfg.initialStartIndex
    endIndex := cfg.initialStartIndex + cfg.windowSize - 1
    isLoading := false
    scrollTop := 0
    pendingDebounce := none
    pendingLoad := none
    episodes := 0
    lastCallback := none }

/-- The new start index of a shift: down is `start + batchSize` (line 126,
no upper bound), up is `max 0 (start - batchSize)` (line 207). -/
def shiftedStart (cfg : Config) (d : Direction) (start : Int) : Int :=
  match d with
  | Direction.down => start + cfg.batchSize
  | Direction.up => max 0 (start - cfg.batchSize)

/-- Scroll compensation applied after a shift (lines 138 and 219):
down rewrites the offset to `max 0 (pre - batchSize * itemHeight)`,
up rewrites it to `pre + batchSize * itemHeight`, where `pre` is the offset
captured when the load episode started. -/
def compensate (cfg : Config) (d : Direction) (pre : Int) : Int :=
  match d with
  | Direction.down => max 0 (pre - cfg.batchSize * cfg.itemHeight)
  | Direction.up => pre + cfg.batchSize * cfg.itemHeight

/-- The loading timer fires: the window shifts, `isLoading` clears, the
`onLoadMore` callback fires with the new range, and (unless
`disableScrollManagement`) the scroll offset is rewritten from the captured
pre-shift offset `pre` (lines 125-151, 154-163, 206-232, 235-244). -/
def applyLoad (cfg : Config) (d : Direction) (pre : Int) (s : LoaderState) :
    LoaderState :=
  let newStart := shiftedStart cfg d s.startIndex
  let newEnd := newStart + cfg.windowSize - 1
  { s with
    startIndex := newStart
    endIndex := newEnd
    isLoading := false
    pendingLoad := none
    scrollTop :=
      if cfg.disableScrollManagement then s.scrollTop
      else compensate cfg d pre
    episodes := s.episodes + 1
    lastCallback := some (d, newStart, newEnd) }

/-- The debounce timer fires at time `t`: `setIsLoading(true)`, the current
scroll offset is captured, and the shift is scheduled after `loadingDelay`
(lines 101-111 and 182-192). -/
def fireDebounce (cfg : Config) (t : Nat) (d : Direction) (s : LoaderState) :
    LoaderState :=
  { s with
    isLoading := true
    pendingDebounce := none
    pendingLoad := some (t + cfg.loadingDelay, d, s.scrollTop) }

/-- An edge event at time `t`. A down event is dropped while loading
(line 93); an up event is dropped while loading or when `startIndex <= 0`
(line 174). Otherwise any pending debounce timer is cancelled and replaced
by one firing at `t + debounceDelay` (lines 96-101, 177-182). -/
def handleEdge (cfg : Config) (t : Nat) (d : Direction) (s : LoaderState) :
    LoaderState :=
  match d with
  | Direction.down =>
      if s.isLoading then s
      else { s with pendingDebounce := some (t + cfg.debounceDelay, Direction.down) }
  | Direction.up =>
      if s.isLoading then s
      else if s.startIndex ≤ 0 then s
      else { s with pendingDebounce := some (t + cfg.debounceDelay, Direction.up) }

/-- Fire the pending debounce timer if it is due at time `t`. -/
def fireDueDebounce (cfg : Config) (t : Nat) (s : LoaderState) : LoaderState :=
  match s.pendingDebounce with
  | some (ft, d) => if ft ≤ t then fireDebounce cfg ft d s else s
  | none => s

/-- Fire the pending load timer if it is due at time `t`. -/
def fireDueLoad (cfg : Config) (t : Nat) (s : LoaderState) : LoaderState :=
  match s.pendingLoad with
  | some (ft, d, pre) => if ft ≤ t then applyLoad cfg d pre s else s
  | none => s

/-- Fire every timer due at time `t` (a due debounce timer may schedule a
load timer that is itself already due). -/
def fireDue (cfg : Config) (t : Nat) (s : LoaderState) : LoaderState :=
  fireDueLoad cfg t (fireDueDebounce cfg t s)

/-- Process one timestamped edge event: first run every timer callback due
before it, then the event handler itself. -/
def processEvent (cfg : Config) (s : LoaderState) (ev : Nat × Direction) :
    LoaderState :=
  handleEdge cfg ev.1 ev.2 (fireDue cfg ev.1 s)

/-- Let all remaining timers run to completion (quiescence). -/
def flushState (cfg : Config) (s : LoaderState) : LoaderState :=
  let s1 :=
    match s.pendingDebounce with
    | some (ft, d) => fireDebounce cfg ft d s
    | none => s
  match s1.pendingLoad with
  | some (_, d, pre) => applyLoad cfg d pre s1
  | none => s1

/-- `scrollToIndex(index)` (lines 362-374): synchronously sets the offset to
`index * itemHeight` and recenters the window at
`max 0 (index - windowSize / 2)` (integer floor division, as
`Math.floor(windowSize / 2)`), without touching the debounce or loading
machinery. -/
def scrollToIndex (cfg : Config) (i : Int) (s : LoaderState) : LoaderState :=
  let newStart := max 0 (i - cfg.windowSize / 2)
  { s with
    scrollTop := i * cfg.itemHeight
    startIndex := newStart
    endIndex := newStart + cfg.windowSize - 1 }

/-- `reset()` (lines 376-382): restores the initial window and sets the
offset to 0. It does not cancel pending timers or clear the loading flag. -/
def resetState (cfg : Config) (s : LoaderState) : LoaderState :=
  { s with
    startIndex := cfg.initialStartIndex
    endIndex := cfg.initialStartIndex + cfg.windowSize - 1
    scrollTop := 0 }

/-- One observable operation on the controller: a timestamped edge event,
letting pending timers complete (`settle`, i.e. the rest of a load episode),
`scrollToIndex`, or `reset`. -/
inductive Op where
  | edge : Nat → Direction → Op
  | settle : Op
  | scrollTo : Int → Op
  | reset : Op
deriving DecidableEq, Repr

/-- Apply one operation to a state. -/
def applyOp (cfg : Config) (s : LoaderState) (op : Op) : LoaderState :=
  match op with
  | Op.edge t d => processEvent cfg s (t, d)
  | Op.settle => flushState cfg s
  | Op.scrollTo i => scrollToIndex cfg i s
  | Op.reset => resetState cfg s

/-- The state reached from initialization by a sequence of operations. -/
def runOps (cfg : Config) (ops : List Op) : LoaderState :=
  ops.foldl (applyOp cfg) (init cfg)

/-- The state reached from initialization by a sequence of timestamped edge
events alone. -/
def runEvents (cfg : Config) (events : List (Nat × Direction)) : LoaderState :=
  events.foldl (processEvent cfg) (init cfg)

/-- Total number of completed load episodes produced by an event sequence,
after all timers have run to completion. -/
def totalEpisodes (cfg : Config) (events : List (Nat × Direction)) : Nat :=
  (flushState cfg (runEvents cfg events)).episodes

/-- A complete load episode triggered at time `t` from direction `d`: the
edge event followed by letting its debounce and loading timers complete. -/
def loadEpisode (cfg : Config) (t : Nat) (d : Direction) (s : LoaderState) :
    LoaderState :=
  applyOp cfg (applyOp cfg s (Op.edge t d)) Op.settle

/-- The configuration with scroll management disabled and all else default. -/
def noScrollConfig : Config := { disableScrollManagement := true }

/-- The fixed-width window invariant. -/
def widthOk (cfg : Config) (s : LoaderState) : Prop :=
  s.endIndex - s.startIndex + 1 = cfg.windowSize

/-- Nonnegativity of the window start. -/
def startOk (s : LoaderState) : Prop := 0 ≤ s.startIndex

lemma widthOk_init (cfg : Config) : widthOk cfg (init cfg) := by
  simp only [widthOk, init]
  ring

lemma widthOk_applyLoad (cfg : Config) (d : Direction) (pre : Int)
    (s : LoaderState) : widthOk cfg (applyLoad cfg d pre s) := by
  simp only [widthOk, applyLoad]
  ring

lemma widthOk_fireDebounce (cfg : Config) (t : Nat) (d : Direction)
    (s : LoaderState) (h : widthOk cfg s) :
    widthOk cfg (fireDebounce cfg t d s) := by
  simpa [widthOk, fireDebounce] using h

lemma widthOk_fireDueDebounce (cfg : Config) (t : Nat) (s : LoaderState)
    (h : widthOk cfg s) : widthOk cfg (fireDueDebounce cfg t s) := by
  unfold fireDueDebounce
  rcases hp : s.pendingDebounce with _ | ⟨ft, d⟩
  · exact h
  · dsimp only
    split
    · exact widthOk_fireDebounce cfg ft d s h
    · exact h

lemma widthOk_fireDueLoad (cfg : Config) (t : Nat) (s : LoaderState)
    (h : widthOk cfg s) : widthOk cfg (fireDueLoad cfg t s) := by
  unfold fireDueLoad
  rcases hp : s.pendingLoad with _ | ⟨ft, d, pre⟩
  · exact h
  · dsimp only
    split
    · exact widthOk_applyLoad cfg d pre s
    · exact h

lemma widthOk_handleEdge (cfg : Config) (t : Nat) (d : Direction)
    (s : LoaderState) (h : widthOk cfg s) :
    widthOk cfg (handleEdge cfg t d s) := by
  cases d <;> simp only [handleEdge] <;> split_ifs <;>
    simpa [widthOk] using h

lemma widthOk_flushState (cfg : Config) (s : LoaderState) (h : widthOk cfg s) :
    widthOk cfg (flushState cfg s) := by
  unfold flushState
  rcases hp : s.pendingDebounce with _ | ⟨ft, d⟩
  · simp only [hp]
    rcases hq : s.pendingLoad with _ | ⟨ft2, d2, pre2⟩
    · simpa [hq] using h
    · simpa [hq] using widthOk_applyLoad cfg d2 pre2 s
  · simp only [hp]
    rcases hq : (fireDebounce cfg ft d s).pendingLoad with _ | ⟨ft2, d2, pre2⟩
    · simpa [hq] using widthOk_fireDebounce cfg ft d s h
    · simpa [hq] using widthOk_applyLoad cfg d2 pre2 _

lemma widthOk_scrollToIndex (cfg : Config) (i : Int) (s : LoaderState) :
    widthOk cfg (scrollToIndex cfg i s) := by
  simp only [widthOk, scrollToIndex]
  ring

lemma widthOk_resetState (cfg : Config) (s : LoaderState) :
    widthOk cfg (resetState cfg s) := by
  simp only [widthOk, resetState]
  ring

lemma widthOk_applyOp (cfg : Config) (s : LoaderState) (op : Op)
    (h : widthOk cfg s) : widthOk cfg (applyOp cfg s op) := by
  cases op with
  | edge t d =>
      exact widthOk_handleEdge cfg t d _
        (widthOk_fireDueLoad cfg t _ (widthOk_fireDueDebounce cfg t s h))
  | settle => exact widthOk_flushState cfg s h
  | scrollTo i => exact widthOk_scrollToIndex cfg i s
  | reset => exact widthOk_resetState cfg s

lemma widthOk_foldl (cfg : Config) (ops : List Op) :
    ∀ s : LoaderState, widthOk cfg s → widthOk cfg (ops.foldl (applyOp cfg) s) := by
  induction ops with
  | nil => intro s h; exact h
  | cons op rest ih =>
      intro s h
      exact ih _ (widthOk_applyOp cfg s op h)

end InfiniteLoader

namespace InfiniteLoader

/-- C1: every state reachable from initialization by any sequence of edge
events, completed load episodes, `scrollToIndex` calls and `reset` calls
satisfies `endIndex - startIndex + 1 = windowSize`. -/
theorem width_invariant (cfg : Config) (ops : List Op) :
    (runOps cfg ops).endIndex - (runOps cfg ops).startIndex + 1 = cfg.windowSize :=
  widthOk_foldl cfg ops (init cfg) (widthOk_init cfg)

lemma startOk_applyLoad (cfg : Config) (d : Direction) (pre : Int)
    (s : LoaderState) (hb : 0 ≤ cfg.batchSize) (h : startOk s) :
    startOk (applyLoad cfg d pre s) := by
  cases d <;>
    simp only [startOk, applyLoad, shiftedStart] at h ⊢ <;> omega

lemma startOk_fireDebounce (cfg : Config) (t : Nat) (d : Direction)
    (s : LoaderState) (h : startOk s) : startOk (fireDebounce cfg t d s) := by
  simpa [startOk, fireDebounce] using h

lemma startOk_fireDueDebounce (cfg : Config) (t : Nat) (s : LoaderState)
    (h : startOk s) : startOk (fireDueDebounce cfg t s) := by
  unfold fireDueDebounce
  rcases hp : s.pendingDebounce with _ | ⟨ft, d⟩
  · exact h
  · dsimp only
    split
    · exact startOk_fireDebounce cfg ft d s h
    · exact h

lemma startOk_fireDueLoad (cfg : Config) (t : Nat) (s : LoaderState)
    (hb : 0 ≤ cfg.batchSize) (h : startOk s) : startOk (fireDueLoad cfg t s) := by
  unfold fireDueLoad
  rcases hp : s.pendingLoad with _ | ⟨ft, d, pre⟩
  · exact h
  · dsimp only
    split
    · exact startOk_applyLoad cfg d pre s hb h
    · exact h

lemma startOk_handleEdge (cfg : Config) (t : Nat) (d : Direction)
    (s : LoaderState) (h : startOk s) : startOk (handleEdge cfg t d s) := by
  cases d <;> simp only [handleEdge] <;> split_ifs <;>
    simpa [startOk] using h

lemma startOk_flushState (cfg : Config) (s : LoaderState)
    (hb : 0 ≤ cfg.batchSize) (h : startOk s) : startOk (flushState cfg s) := by
  unfold flushState
  rcases hp : s.pendingDebounce with _ | ⟨ft, d⟩
  · simp only [hp]
    rcases hq : s.pendingLoad with _ | ⟨ft2, d2, pre2⟩
    · simpa [hq] using h
    · simpa [hq] using startOk_applyLoad cfg d2 pre2 s hb h
  · simp only [hp]
    rcases hq : (fireDebounce cfg ft d s).pendingLoad with _ | ⟨ft2, d2, pre2⟩
    · simpa [hq] using startOk_fireDebounce cfg ft d s h
    · simpa [hq] using
        startOk_applyLoad cfg d2 pre2 _ hb (startOk_fireDebounce cfg ft d s h)

lemma startOk_scrollToIndex (cfg : Config) (i : Int) (s : LoaderState) :
    startOk (scrollToIndex cfg i s) := by
  simp only [startOk, scrollToIndex]
  exact le_max_left 0 _

lemma startOk_resetState (cfg : Config) (s : LoaderState)
    (hi : 0 ≤ cfg.initialStartIndex) : startOk (resetState cfg s) := by
  simpa [startOk, resetState] using hi

lemma startOk_applyOp (cfg : Config) (s : LoaderState) (op : Op)
    (hb : 0 ≤ cfg.batchSize) (hi : 0 ≤ cfg.initialStartIndex)
    (h : startOk s) : startOk (applyOp cfg s op) := by
  cases op with
  | edge t d =>
      exact startOk_handleEdge cfg t d _
        (startOk_fireDueLoad cfg t _ hb (startOk_fireDueDebounce cfg t s h))
  | settle => exact startOk_flushState cfg s hb h
  | scrollTo i => exact startOk_scrollToIndex cfg i s
  | reset => exact startOk_resetState cfg s hi

lemma startOk_foldl (cfg : Config) (hb : 0 ≤ cfg.batchSize)
    (hi : 0 ≤ cfg.initialStartIndex) (ops : List Op) :
    ∀ s : LoaderState, startOk s → startOk (ops.foldl (applyOp cfg) s) := by
  induction ops with
  | nil => intro s h; exact h
  | cons op rest ih =>
      intro s h
      exact ih _ (startOk_applyOp cfg s op hb hi h)

/-- C2 counterexample: the component accepts `batchSize = -10` (it rejects no
configuration), and from the initial state with `startIndex = 0 ≥ 0` a single
completed downward load episode produces `startIndex = -10 < 0`. -/
theorem startIndex_nonneg_counterexample :
    (0 ≤ (init { batchSize := -10 }).startIndex) ∧
    (runOps { batchSize := -10 } [Op.edge 0 Direction.down, Op.settle]).startIndex
      = -10 ∧
    (runOps { batchSize := -10 } [Op.edge 0 Direction.down, Op.settle]).startIndex
      < 0 := by
  decide

/-- C2 (amended): provided the configuration has `batchSize ≥ 0` and
`initialStartIndex ≥ 0`, every reachable state has `startIndex ≥ 0` — so all
four window-changing operations preserve nonnegativity under those
configurations, but the controller also accepts negative `batchSize` /
`initialStartIndex`, for which the invariant fails. -/
theorem startIndex_nonneg (cfg : Config) (hb : 0 ≤ cfg.batchSize)
    (hi : 0 ≤ cfg.initialStartIndex) (ops : List Op) :
    0 ≤ (runOps cfg ops).startIndex :=
  startOk_foldl cfg hb hi ops (init cfg) hi

/-- Witness for `startIndex_nonneg` at the default configuration and a
concrete operation sequence. -/
theorem startIndex_nonneg_witness :
    0 ≤ (runOps defaultConfig
      [Op.edge 0 Direction.down, Op.settle, Op.reset]).startIndex :=
  startIndex_nonneg defaultConfig (by decide) (by decide) _

/-- C3: a completed shift sets `newStart = start + batchSize` for down (no
upper bound) and `newStart = max 0 (start - batchSize)` for up, with
`newEnd = newStart + windowSize - 1` in both cases; when
`start ≤ batchSize`, an upward shift lands at 0, i.e. moves by less than
`batchSize` near index 0. -/
theorem shift_arithmetic (cfg : Config) (d : Direction) (pre : Int)
    (s : LoaderState) :
    (applyLoad cfg d pre s).startIndex =
      (match d with
       | Direction.down => s.startIndex + cfg.batchSize
       | Direction.up => max 0 (s.startIndex - cfg.batchSize)) ∧
    (applyLoad cfg d pre s).endIndex =
      (applyLoad cfg d pre s).startIndex + cfg.windowSize - 1 ∧
    (s.startIndex ≤ cfg.batchSize →
      (applyLoad cfg Direction.up pre s).startIndex = 0) := by
  refine ⟨?_, ?_, ?_⟩
  · cases d <;> simp [applyLoad, shiftedStart]
  · cases d <;> simp [applyLoad, shiftedStart]
  · intro h
    simp only [applyLoad, shiftedStart]
    omega

/-- Witness for `shift_arithmetic`: at the default configuration an upward
shift from the initial state (start 0 ≤ batch 10) lands at 0. -/
theorem shift_arithmetic_witness :
    (applyLoad defaultConfig Direction.up 0 (init defaultConfig)).startIndex = 0 :=
  (shift_arithmetic defaultConfig Direction.up 0 (init defaultConfig)).2.2
    (by decide)

/-- C4: with scroll management enabled, a complete load episode from a
quiescent state rewrites the viewport offset to
`max 0 (pre - batchSize * itemHeight)` for a downward episode and to
`pre + batchSize * itemHeight` for an upward episode, where `pre` is the
offset held when the episode started. -/
theorem scroll_compensation (cfg : Config) (s : LoaderState) (t : Nat)
    (d : Direction)
    (hm : cfg.disableScrollManagement = false)
    (hl : s.isLoading = false) (hd : s.pendingDebounce = none)
    (hp : s.pendingLoad = none)
    (he : d = Direction.down ∨ 0 < s.startIndex) :
    (loadEpisode cfg t d s).scrollTop =
      (match d with
       | Direction.down => max 0 (s.scrollTop - cfg.batchSize * cfg.itemHeight)
       | Direction.up => s.scrollTop + cfg.batchSize * cfg.itemHeight) := by
  cases d with
  | down =>
      simp [loadEpisode, applyOp, processEvent, fireDue, fireDueDebounce,
        fireDueLoad, handleEdge, flushState, fireDebounce, applyLoad,
        compensate, hd, hp, hl, hm]
  | up =>
      have hpos : ¬ s.startIndex ≤ 0 := by
        rcases he with he | he
        · exact absurd he (by decide)
        · omega
      simp [loadEpisode, applyOp, processEvent, fireDue, fireDueDebounce,
        fireDueLoad, handleEdge, flushState, fireDebounce, applyLoad,
        compensate, hd, hp, hl, hm, hpos]

/-- Witness for `scroll_compensation`: a downward episode from the initial
state at the default configuration. -/
theorem scroll_compensation_witness :
    (loadEpisode defaultConfig 0 Direction.down (init defaultConfig)).scrollTop
      = 0 := by
  have h := scroll_compensation defaultConfig (init defaultConfig) 0
    Direction.down rfl rfl rfl rfl (Or.inl rfl)
  simpa using h

/-- C6: when `startIndex ≤ 0`, a top-edge (up) trigger returns before doing
anything: the handler is the identity on the whole state, so the window,
loading flag, viewport offset, pending timers, episode count and callback
record are all unchanged and no load episode is started. -/
theorem up_trigger_noop (cfg : Config) (t : Nat) (s : LoaderState)
    (h : s.startIndex ≤ 0) : handleEdge cfg t Direction.up s = s := by
  cases hL : s.isLoading <;> simp [handleEdge, hL, h]

/-- Witness for `up_trigger_noop` at the initial default state
(window `(0, 29)`). -/
theorem up_trigger_noop_witness :
    handleEdge defaultConfig 0 Direction.up (init defaultConfig)
      = init defaultConfig :=
  up_trigger_noop defaultConfig 0 (init defaultConfig) (by decide)

/-- C7: for `i ≥ 0`, `scrollToIndex i` synchronously sets the offset to
`i * itemHeight` and the window to `(max 0 (i - ⌊windowSize / 2⌋), start +
windowSize - 1)`, leaving the loading flag and both pending timers alone
(it bypasses debounce and the load scheduler); concretely,
`scrollToIndex 105` at `windowSize = 30` gives window `(90, 119)` and offset
`105 * itemHeight`. -/
theorem scrollToIndex_spec (cfg : Config) (i : Int) (s : LoaderState)
    (h : 0 ≤ i) :
    ((scrollToIndex cfg i s).scrollTop = i * cfg.itemHeight ∧
     (scrollToIndex cfg i s).startIndex = max 0 (i - cfg.windowSize / 2) ∧
     (scrollToIndex cfg i s).endIndex =
       (scrollToIndex cfg i s).startIndex + cfg.windowSize - 1 ∧
     (scrollToIndex cfg i s).isLoading = s.isLoading ∧
     (scrollToIndex cfg i s).pendingDebounce = s.pendingDebounce ∧
     (scrollToIndex cfg i s).pendingLoad = s.pendingLoad ∧
     (scrollToIndex cfg i s).episodes = s.episodes) ∧
    ((scrollToIndex defaultConfig 105 (init defaultConfig)).startIndex = 90 ∧
     (scrollToIndex defaultConfig 105 (init defaultConfig)).endIndex = 119 ∧
     (scrollToIndex defaultConfig 105 (init defaultConfig)).scrollTop
       = 105 * defaultConfig.itemHeight) := by
  exact ⟨by simp [scrollToIndex], by decide⟩

/-- Witness for `scrollToIndex_spec` at `i = 0`. -/
theorem scrollToIndex_spec_witness :
    (scrollToIndex defaultConfig 0 (init defaultConfig)).scrollTop
      = 0 * defaultConfig.itemHeight :=
  (scrollToIndex_spec defaultConfig 0 (init defaultConfig) (by decide)).1.1

/-- C8 evidence: construction performs no validation. With `windowSize = 0`
(all else default) initialization is accepted without any error and produces
the degenerate window `(0, -1)` with `endIndex < startIndex`. -/
theorem invalid_config_accepted :
    (init { windowSize := 0 }).startIndex = 0 ∧
    (init { windowSize := 0 }).endIndex = -1 ∧
    (init { windowSize := 0 }).endIndex < (init { windowSize := 0 }).startIndex
    := by decide

/-- C9: for a negative index and a nonnegative `windowSize`, `scrollToIndex`
clamps the window start to 0 (the same `max 0 _` clamping as an upward
shift) and keeps the width invariant intact. -/
theorem scrollToIndex_negative_clamp (cfg : Config) (i : Int) (s : LoaderState)
    (hneg : i < 0) (hws : 0 ≤ cfg.windowSize) :
    (scrollToIndex cfg i s).startIndex = 0 ∧
    (scrollToIndex cfg i s).endIndex - (scrollToIndex cfg i s).startIndex + 1
      = cfg.windowSize := by
  have hdiv : 0 ≤ cfg.windowSize / 2 := Int.ediv_nonneg hws (by decide)
  constructor
  · simp only [scrollToIndex]
    omega
  · simp only [scrollToIndex]
    ring

/-- Witness for `scrollToIndex_negative_clamp` at `i = -5`. -/
theorem scrollToIndex_negative_clamp_witness :
    (scrollToIndex defaultConfig (-5) (init defaultConfig)).startIndex = 0 :=
  (scrollToIndex_negative_clamp defaultConfig (-5) (init defaultConfig)
    (by decide) (by decide)).1

/-- C10: with `disableScrollManagement = true`, a complete load episode still
shifts the window by the usual arithmetic, still increments the episode
count and still fires the callback with the new range, but leaves the
viewport offset untouched; `reset` still zeroes the offset and
`scrollToIndex i` still sets it to `i * itemHeight`. -/
theorem disable_scroll_management (cfg : Config) (s : LoaderState) (t : Nat)
    (d : Direction) (i : Int)
    (hm : cfg.disableScrollManagement = true)
    (hl : s.isLoading = false) (hd : s.pendingDebounce = none)
    (hp : s.pendingLoad = none)
    (he : d = Direction.down ∨ 0 < s.startIndex) :
    ((loadEpisode cfg t d s).scrollTop = s.scrollTop ∧
     (loadEpisode cfg t d s).startIndex = shiftedStart cfg d s.startIndex ∧
     (loadEpisode cfg t d s).episodes = s.episodes + 1 ∧
     (loadEpisode cfg t d s).lastCallback =
       some (d, shiftedStart cfg d s.startIndex,
         shiftedStart cfg d s.startIndex + cfg.windowSize - 1)) ∧
    (resetState cfg s).scrollTop = 0 ∧
    (scrollToIndex cfg i s).scrollTop = i * cfg.itemHeight := by
  refine ⟨?_, by simp [resetState], by simp [scrollToIndex]⟩
  cases d with
  | down =>
      simp [loadEpisode, applyOp, processEvent, fireDue, fireDueDebounce,
        fireDueLoad, handleEdge, flushState, fireDebounce, applyLoad, hd, hp,
        hl, hm]
  | up =>
      have hpos : ¬ s.startIndex ≤ 0 := by
        rcases he with he | he
        · exact absurd he (by decide)
        · omega
      simp [loadEpisode, applyOp, processEvent, fireDue, fireDueDebounce,
        fireDueLoad, handleEdge, flushState, fireDebounce, applyLoad, hd, hp,
        hl, hm, hpos]

/-- Witness for `disable_scroll_management`: a downward episode from the
initial state with scroll management disabled. -/
theorem disable_scroll_management_witness :
    (loadEpisode noScrollConfig 0 Direction.down (init noScrollConfig)).scrollTop
      = (init noScrollConfig).scrollTop :=
  (disable_scroll_management noScrollConfig (init noScrollConfig) 0
    Direction.down 0 rfl rfl rfl rfl (Or.inl rfl)).1.1

lemma fireDue_not_due (cfg : Config) (t : Nat) (s : LoaderState)
    (hp : s.pendingLoad = none)
    (hd : ∀ ft d, s.pendingDebounce = some (ft, d) → t < ft) :
    fireDue cfg t s = s := by
  unfold fireDue fireDueDebounce fireDueLoad
  rcases hdb : s.pendingDebounce with _ | ⟨ft, d⟩
  · simp [hdb, hp]
  · have hlt := hd ft d hdb
    simp [hdb, hp, Nat.not_le.mpr hlt]

lemma handleEdge_fields (cfg : Config) (t : Nat) (d : Direction)
    (s : LoaderState) :
    (handleEdge cfg t d s).isLoading = s.isLoading ∧
    (handleEdge cfg t d s).pendingLoad = s.pendingLoad ∧
    (handleEdge cfg t d s).episodes = s.episodes ∧
    (handleEdge cfg t d s).startIndex = s.startIndex ∧
    ((handleEdge cfg t d s).pendingDebounce = s.pendingDebounce ∨
     (handleEdge cfg t d s).pendingDebounce = some (t + cfg.debounceDelay, d)) := by
  cases d <;> simp only [handleEdge] <;> split_ifs <;> simp

lemma handleEdge_arm (cfg : Config) (t : Nat) (d : Direction) (s : LoaderState)
    (hl : s.isLoading = false) (he : d = Direction.up → 0 < s.startIndex) :
    handleEdge cfg t d s =
      { s with pendingDebounce := some (t + cfg.debounceDelay, d) } := by
  cases d with
  | down => simp [handleEdge, hl]
  | up =>
      have hpos : ¬ s.startIndex ≤ 0 := by
        have := he rfl
        omega
      simp [handleEdge, hl, hpos]

lemma flushState_episodes_le (cfg : Config) (s : LoaderState)
    (hp : s.pendingLoad = none) :
    (flushState cfg s).episodes ≤ s.episodes + 1 := by
  unfold flushState
  rcases hd : s.pendingDebounce with _ | ⟨ft, d⟩
  · simp [hd, hp]
  · simp [hd, fireDebounce, applyLoad]

lemma flushState_episodes_armed (cfg : Config) (s : LoaderState) (ft : Nat)
    (d : Direction) (hd : s.pendingDebounce = some (ft, d)) :
    (flushState cfg s).episodes = s.episodes + 1 := by
  unfold flushState
  simp [hd, fireDebounce, applyLoad]

/-- Invariant carried while a burst of events is processed and no timer has
yet had a chance to fire: not loading, no pending shift, no completed
episode, and any armed debounce timer fires no earlier than
`t0 + debounceDelay`. -/
lemma runQuiet (cfg : Config) (t0 : Nat) :
    ∀ (events : List (Nat × Direction)) (s : LoaderState),
      s.isLoading = false → s.pendingLoad = none →
      (∀ ft d, s.pendingDebounce = some (ft, d) → t0 + cfg.debounceDelay ≤ ft) →
      (∀ ev ∈ events, t0 ≤ ev.1 ∧ ev.1 < t0 + cfg.debounceDelay) →
      (events.foldl (processEvent cfg) s).isLoading = false ∧
      (events.foldl (processEvent cfg) s).pendingLoad = none ∧
      (events.foldl (processEvent cfg) s).episodes = s.episodes ∧
      (∀ ft d, (events.foldl (processEvent cfg) s).pendingDebounce
        = some (ft, d) → t0 + cfg.debounceDelay ≤ ft) := by
  intro events
  induction events with
  | nil =>
      intro s h1 h2 h3 _
      exact ⟨h1, h2, rfl, h3⟩
  | cons ev rest ih =>
      intro s h1 h2 h3 h4
      have hev := h4 ev (List.mem_cons_self ev rest)
      have hfd : fireDue cfg ev.1 s = s :=
        fireDue_not_due cfg ev.1 s h2
          (fun ft d hd => lt_of_lt_of_le hev.2 (h3 ft d hd))
      have hstep : processEvent cfg s ev = handleEdge cfg ev.1 ev.2 s := by
        rw [processEvent, hfd]
      obtain ⟨f1, f2, f3, _, f5⟩ := handleEdge_fields cfg ev.1 ev.2 s
      have h3' : ∀ ft d,
          (handleEdge cfg ev.1 ev.2 s).pendingDebounce = some (ft, d) →
          t0 + cfg.debounceDelay ≤ ft := by
        intro ft d hd
        rcases f5 with f5 | f5
        · exact h3 ft d (f5 ▸ hd)
        · rw [f5] at hd
          have : ev.1 + cfg.debounceDelay = ft := congrArg Prod.fst
            (Option.some.inj hd)
          omega
      have hres := ih (handleEdge cfg ev.1 ev.2 s)
        (f1.trans h1) (f2.trans h2) h3'
        (fun e he => h4 e (List.mem_cons_of_mem ev he))
      rw [List.foldl_cons, hstep]
      exact ⟨hres.1, hres.2.1, hres.2.2.1.trans f3, hres.2.2.2⟩

/-- Invariant carried while a same-direction burst with consecutive gaps
below `debounceDelay` is processed: every event re-arms the debounce timer
before it can fire, so no episode occurs and exactly one timer stays armed. -/
lemma runChain (cfg : Config) (d : Direction) :
    ∀ (ts : List Nat) (s : LoaderState) (tl : Nat),
      s.isLoading = false → s.pendingLoad = none →
      s.pendingDebounce = some (tl + cfg.debounceDelay, d) →
      (d = Direction.up → 0 < s.startIndex) →
      List.Chain (fun a b => a ≤ b ∧ b < a + cfg.debounceDelay) tl ts →
      ∃ tl2 : Nat,
        ((ts.map (fun t => (t, d))).foldl (processEvent cfg) s).isLoading
          = false ∧
        ((ts.map (fun t => (t, d))).foldl (processEvent cfg) s).pendingLoad
          = none ∧
        ((ts.map (fun t => (t, d))).foldl (processEvent cfg) s).pendingDebounce
          = some (tl2 + cfg.debounceDelay, d) ∧
        ((ts.map (fun t => (t, d))).foldl (processEvent cfg) s).episodes
          = s.episodes := by
  intro ts
  induction ts with
  | nil =>
      intro s tl h1 h2 h3 _ _
      exact ⟨tl, h1, h2, h3, rfl⟩
  | cons t rest ih =>
      intro s tl h1 h2 h3 hdir hchain
      rw [List.chain_cons] at hchain
      obtain ⟨⟨hle, hlt⟩, hchain⟩ := hchain
      have hfd : fireDue cfg t s = s := by
        refine fireDue_not_due cfg t s h2 ?_
        intro ft dd hd
        rw [h3] at hd
        have : tl + cfg.debounceDelay = ft := congrArg Prod.fst
          (Option.some.inj hd)
        omega
      have harm := handleEdge_arm cfg t d s h1 hdir
      have hstep : processEvent cfg s (t, d) =
          { s with pendingDebounce := some (t + cfg.debounceDelay, d) } := by
        rw [processEvent, hfd]
        exact harm
      have hrec := ih
        { s with pendingDebounce := some (t + cfg.debounceDelay, d) } t
        h1 h2 rfl hdir hchain
      obtain ⟨tl2, g1, g2, g3, g4⟩ := hrec
      refine ⟨tl2, ?_, ?_, ?_, ?_⟩
      · rw [List.map_cons, List.foldl_cons, hstep]; exact g1
      · rw [List.map_cons, List.foldl_cons, hstep]; exact g2
      · rw [List.map_cons, List.foldl_cons, hstep]; exact g3
      · rw [List.map_cons, List.foldl_cons, hstep]; exact g4

/-- C5 counterexample: three edge events at times 0 (down), 100 (up, with
`startIndex = 0`, so it is silently dropped and does not restart the
debounce timer), and 210 (down), at the default configuration. Consecutive
events are 100 and 110 apart, both below `debounceDelay = 150`, yet two load
episodes complete: the first timer matures at 150 and its episode finishes
at 200, before the third event arrives. -/
theorem debounce_coalescing_counterexample :
    (100 - 0 < defaultConfig.debounceDelay ∧
     210 - 100 < defaultConfig.debounceDelay) ∧
    totalEpisodes defaultConfig
      [(0, Direction.down), (100, Direction.up), (210, Direction.down)]
      = 2 := by
  decide

/-- C5 (amended): (1) any finite burst of edge events, from either edge in
any mix, that all occur within less than `debounceDelay` of the first event
produces at most one load episode; (2) a burst of events all for the same
eligible direction (up requires `initialStartIndex > 0`) in which
consecutive events are less than `debounceDelay` apart produces exactly one
load episode. (Mixed-edge bursts merely satisfying the consecutive-gap
condition can produce more than one episode, because a dropped ineligible up
event does not restart the pending debounce timer.) -/
theorem debounce_coalescing :
    (∀ (cfg : Config) (t0 : Nat) (events : List (Nat × Direction)),
      (∀ ev ∈ events, t0 ≤ ev.1 ∧ ev.1 < t0 + cfg.debounceDelay) →
      totalEpisodes cfg events ≤ 1) ∧
    (∀ (cfg : Config) (d : Direction) (t1 : Nat) (ts : List Nat),
      (d = Direction.up → 0 < cfg.initialStartIndex) →
      List.Chain (fun a b => a ≤ b ∧ b < a + cfg.debounceDelay) t1 ts →
      totalEpisodes cfg ((t1 :: ts).map (fun t => (t, d))) = 1) := by
  constructor
  · intro cfg t0 events hall
    have hq := runQuiet cfg t0 events (init cfg) rfl rfl
      (fun ft d hd => by simp [init] at hd) hall
    have hle := flushState_episodes_le cfg
      (events.foldl (processEvent cfg) (init cfg)) hq.2.1
    calc totalEpisodes cfg events
        ≤ (events.foldl (processEvent cfg) (init cfg)).episodes + 1 := hle
      _ = 1 := by rw [hq.2.2.1]; rfl
  · intro cfg d t1 ts hdir hchain
    have hinit : d = Direction.up → 0 < (init cfg).startIndex := hdir
    have hstep : processEvent cfg (init cfg) (t1, d) =
        { init cfg with
            pendingDebounce := some (t1 + cfg.debounceDelay, d) } := by
      rw [processEvent, fireDue_not_due cfg t1 (init cfg) rfl
        (fun ft dd hd => by simp [init] at hd)]
      exact handleEdge_arm cfg t1 d (init cfg) rfl hinit
    have hrec := runChain cfg d ts
      { init cfg with pendingDebounce := some (t1 + cfg.debounceDelay, d) }
      t1 rfl rfl rfl hinit hchain
    obtain ⟨tl2, g1, g2, g3, g4⟩ := hrec
    have hrun : runEvents cfg ((t1 :: ts).map (fun t => (t, d))) =
        (ts.map (fun t => (t, d))).foldl (processEvent cfg)
          { init cfg with
              pendingDebounce := some (t1 + cfg.debounceDelay, d) } := by
      rw [runEvents, List.map_cons, List.foldl_cons, hstep]
    rw [totalEpisodes, hrun,
      flushState_episodes_armed cfg _ (tl2 + cfg.debounceDelay) d g3, g4]
    rfl

/-- Witness for `debounce_coalescing`: both parts at concrete bursts — a
mixed two-event burst within one debounce window, and a two-event
down-direction burst 100 apart. -/
theorem debounce_coalescing_witness :
    totalEpisodes defaultConfig [(0, Direction.down), (10, Direction.up)] ≤ 1 ∧
    totalEpisodes defaultConfig
      ((0 :: [100]).map (fun t => (t, Direction.down))) = 1 := by
  constructor
  · exact debounce_coalescing.1 defaultConfig 0 _ (by decide)
  · exact debounce_coalescing.2 defaultConfig Direction.down 0 [100]
      (by decide) (List.Chain.cons (by decide) List.Chain.nil)

end InfiniteLoader
